import Mathlib

/-!
# Verification of the `mimic` reconciliation engine

A shallow embedding, in Lean 4, of the parts of the `mimic` dotfile manager
that the specification's claims talk about:

* `src/config.rs` — `should_apply_for_roles`, `Packages::normalized`,
  `Config::with_host`;
* `src/diff.rs` — `DiffEngine::diff`, `diff_dotfile`, `diff_package`;
* `src/linker.rs` — `backup_file`, `remove_target`, `resolve_conflict`,
  `create_symlink_with_resolution`, `apply_template_dotfile`;
* `src/state.rs` — `State`, `DotfileState`, `PackageState`, `load`, `save`,
  `add_dotfile`, `clear` (together with the TOML (de)serialization derived
  by serde);
* `src/cli.rs` — the role filtering in `run_diff`, the diff/apply pipeline of
  `run_apply`, and the state handling of `run_undo`.

The filesystem is modelled as an association list from absolute paths
(component lists) to entries (regular file with string content, symlink with a
destination path, or directory).  Ambient inputs of the real program — the
current time, the interactive conflict prompt, the set of installed Homebrew
packages, the home directory, and the shell path expansion environment — are
passed as explicit parameters.  Fallible operations return `Except String`.
-/

namespace Mimic

/-- An absolute filesystem path, as its list of components.  `[]` is the
filesystem root. -/
abbrev Path := List String

/-- Parent directory of a path (`Path::parent` / `with_file_name` sibling
computations drop the last component). -/
def Path.parent (p : Path) : Path := p.dropLast

/-- Final component of a path (`Path::file_name`). -/
def Path.fileName (p : Path) : Option String := p.getLast?

/-- Display form of a path, as the Rust `Display` of an absolute `PathBuf`. -/
def Path.display (p : Path) : String := "/" ++ String.intercalate "/" p

/-- A filesystem entry: a regular file with byte content (modelled as a
string), a symbolic link holding a destination path, or a directory. -/
inductive Entry where
  | file (content : String)
  | symlink (dest : Path)
  | dir
deriving Repr, DecidableEq

/-- The filesystem: a finite map from paths to entries, as an association
list (first binding wins). -/
abbrev Fs := List (Path × Entry)

namespace Fs

/-- Look up the entry stored at `p` (an `lstat`: symlinks are not followed). -/
def find (fs : Fs) (p : Path) : Option Entry :=
  match fs.lookup p with
  | some e => some e
  | none => none

/-- Follow symlink entries starting at `p`, with fuel to rule out link
cycles, returning the final path.  A missing entry resolves to itself. -/
def resolveLink (fs : Fs) : Nat → Path → Option Path
  | 0, _ => none
  | fuel + 1, p =>
    match fs.find p with
    | some (.symlink d) => fs.resolveLink fuel d
    | _ => some p

/-- `std::path::Path::exists`: follows symlinks; a dangling symlink does not
exist, a link cycle does not exist. -/
def existsPath (fs : Fs) (p : Path) : Bool :=
  match fs.resolveLink (fs.length + 1) p with
  | some q => (fs.find q).isSome
  | none => false

/-- `Path::is_symlink` (via `symlink_metadata`): true iff the entry itself is
a symlink, without following it. -/
def isSymlink (fs : Fs) (p : Path) : Bool :=
  match fs.find p with
  | some (.symlink _) => true
  | _ => false

/-- `Path::is_dir`: follows symlinks and checks for a directory.  The root
`[]` is always a directory. -/
def isDir (fs : Fs) (p : Path) : Bool :=
  p = [] ||
    match fs.resolveLink (fs.length + 1) p with
    | some q => fs.find q = some .dir
    | none => false

/-- `fs::read_link`. -/
def readLink (fs : Fs) (p : Path) : Except String Path :=
  match fs.find p with
  | some (.symlink d) => .ok d
  | _ => .error "not a symlink"

/-- Remove the binding at `p` (an `unlink`). -/
def erase (fs : Fs) (p : Path) : Fs :=
  fs.filter (fun pe => pe.1 ≠ p)

/-- Insert or replace the binding at `p`. -/
def insert (fs : Fs) (p : Path) (e : Entry) : Fs :=
  (p, e) :: fs.erase p

/-- The `symlink(2)` system call: fails with `EEXIST` if any entry (even a
dangling symlink) occupies `tgt`, and with `ENOENT` if the parent directory
of `tgt` does not exist.  On success a symlink entry pointing at `src` is
created at `tgt`. -/
def symlinkOp (fs : Fs) (src tgt : Path) : Except String Fs :=
  if (fs.find tgt).isSome then
    .error "symlink system call failed: EEXIST"
  else if ¬ fs.isDir tgt.parent then
    .error "symlink system call failed: ENOENT"
  else
    .ok (fs.insert tgt (.symlink src))

/-- `fs::write`: create or truncate the file at `p` (following a symlink
entry at `p`), failing on directories, link cycles, or a missing parent
directory. -/
def writeFile (fs : Fs) (p : Path) (c : String) : Except String Fs :=
  match fs.resolveLink (fs.length + 1) p with
  | none => .error "ELOOP"
  | some q =>
    match fs.find q with
    | some .dir => .error "is a directory"
    | some (.file _) => .ok (fs.insert q (.file c))
    | some (.symlink _) => .error "unreachable"
    | none =>
      if fs.isDir q.parent then .ok (fs.insert q (.file c))
      else .error "ENOENT"

/-- `fs::copy src dst`: read the file content at `src` (following symlinks;
directories are not copyable) and write it to `dst`. -/
def copy (fs : Fs) (src dst : Path) : Except String Fs :=
  match fs.resolveLink (fs.length + 1) src with
  | none => .error "ELOOP"
  | some q =>
    match fs.find q with
    | some (.file c) => fs.writeFile dst c
    | _ => .error "not a regular file"

/-- `fs::rename`: move the entry at `src` to `dst`, carrying along every
entry inside it when it is a directory. -/
def rename (fs : Fs) (src dst : Path) : Fs :=
  fs.map (fun pe =>
    if src.isPrefixOf pe.1 then (dst ++ pe.1.drop src.length, pe.2) else pe)

/-- `fs::remove_dir_all`: delete the entry at `p` and everything below it. -/
def removeDirAll (fs : Fs) (p : Path) : Fs :=
  fs.filter (fun pe => ¬ p.isPrefixOf pe.1)

/-- One step of `fs::create_dir_all`: make `q` a directory if the path does
not already lead to one. -/
def mkdirStep (fs : Fs) (q : Path) : Except String Fs :=
  if fs.isDir q then .ok fs
  else
    match fs.find q with
    | none => .ok (fs.insert q .dir)
    | some _ => .error "file exists"

/-- `fs::create_dir_all`: create every missing ancestor of `p`, then `p`
itself. -/
def mkdirAll (fs : Fs) (p : Path) : Except String Fs :=
  (List.range p.length).foldlM (fun acc i => acc.mkdirStep (p.take (i + 1))) fs

end Fs

/-!
## `src/config.rs`: role filtering
-/

/-- Embedding of `config.rs::should_apply_for_roles`:

1. if `skip_roles` is set and shares an element with `host_roles`, skip;
2. else if `only_roles` is set and non-empty, apply iff it shares an element
   with `host_roles`;
3. else apply. -/
def should_apply_for_roles (only_roles skip_roles : Option (List String))
    (host_roles : List String) : Bool :=
  if let some skip := skip_roles then
    if skip.any (fun role => host_roles.contains role) then false
    else
      match only_roles with
      | some only =>
        if only.isEmpty then true
        else only.any (fun role => host_roles.contains role)
      | none => true
  else
    match only_roles with
    | some only =>
      if only.isEmpty then true
      else only.any (fun role => host_roles.contains role)
    | none => true

/-!
## `src/config.rs`: configuration data model and host merging

`HashMap<String, String>` fields are modelled as association lists whose key
lists are duplicate-free (the Rust `HashMap` cannot hold a key twice);
`HashMap::insert` is replace-or-append.
-/

/-- A string-keyed map, as an association list.  Mirrors
`HashMap<String, V>`; well-formed values have `Nodup` keys. -/
abbrev Smap (V : Type) := List (String × V)

namespace Smap

/-- `HashMap::get`: the first binding for `k`. -/
def get? {V} (m : Smap V) (k : String) : Option V :=
  match m.lookup k with
  | some v => some v
  | none => none

/-- `HashMap::insert`: replace the binding for `k` if present, else append. -/
def insert {V} (m : Smap V) (k : String) (v : V) : Smap V :=
  match m with
  | [] => [(k, v)]
  | (k', v') :: rest =>
    if k' = k then (k, v) :: rest else (k', v') :: Smap.insert rest k v

/-- Fold `HashMap::insert` over a list of overriding bindings, as the
`for (key, value) in &host.variables { merged.insert(...) }` loops of
`Config::with_host`. -/
def overrideWith {V} (base overrides : Smap V) : Smap V :=
  overrides.foldl (fun acc kv => acc.insert kv.1 kv.2) base

end Smap

/-- `config.rs::Dotfile`.  `source`/`target` are the raw config strings,
expanded later by the path expander. -/
structure Dotfile where
  source : String
  target : String
  template : Bool
  only_roles : Option (List String)
  skip_roles : Option (List String)
deriving Repr, DecidableEq

/-- `str::ends_with`, computed on the character lists. -/
def strEndsWith (s suf : String) : Bool :=
  suf.data.reverse.isPrefixOf s.data.reverse

/-- `Dotfile::is_template`: the explicit flag, or a `.tmpl`/`.hbs` source
suffix. -/
def Dotfile.is_template (d : Dotfile) : Bool :=
  d.template || strEndsWith d.source ".tmpl" || strEndsWith d.source ".hbs"

/-- `config.rs::Package` (a Homebrew package entry). -/
structure Package where
  name : String
  pkg_type : String
  only_roles : Option (List String)
  skip_roles : Option (List String)
deriving Repr, DecidableEq

/-- `config.rs::Packages`: canonical `homebrew` entries plus the simple
`brew`/`cask` shorthand name lists. -/
structure Packages where
  homebrew : List Package
  brew : List String
  cask : List String
deriving Repr, DecidableEq

/-- `Packages::normalized`: fold the shorthand lists into `homebrew`
(formulas first, then casks), leaving the shorthand lists empty. -/
def Packages.normalized (p : Packages) : Packages :=
  { homebrew :=
      p.homebrew
        ++ p.brew.map (fun name =>
            { name := name, pkg_type := "formula"
              only_roles := none, skip_roles := none })
        ++ p.cask.map (fun name =>
            { name := name, pkg_type := "cask"
              only_roles := none, skip_roles := none })
    brew := []
    cask := [] }

/-- `hooks.rs::FailureMode`. -/
inductive FailureMode where
  | continueMode
  | fail
deriving Repr, DecidableEq

/-- `hooks.rs::CargoPackage`. -/
structure CargoPackage where
  name : String
  git : String
  bin : Option String
deriving Repr, DecidableEq

/-- `hooks.rs::Hook`: the closed tagged union of hook kinds.  The core only
role-filters and sequences hooks; their execution is an external
collaborator. -/
inductive Hook where
  | rustup (toolchains components targets : List String) (default : Option String)
      (only_roles skip_roles : Option (List String))
  | cargoInstall (packages : List CargoPackage)
      (only_roles skip_roles : Option (List String))
  | mise (only_roles skip_roles : Option (List String))
  | pnpmGlobal (packages : List String)
      (only_roles skip_roles : Option (List String))
  | uvPython (version : String) (symlinks : Smap String)
      (only_roles skip_roles : Option (List String))
  | command (name cmd : String) (on_failure : FailureMode)
      (only_roles skip_roles : Option (List String))
deriving Repr, DecidableEq

/-- `config.rs::SecretMetadata`. -/
structure SecretMetadata where
  description : Option String
  env_var : Option String
deriving Repr, DecidableEq

/-- `config.rs::MiseSection`. -/
structure MiseSection where
  tools : Smap String
deriving Repr, DecidableEq

/-- `config.rs::HostConfig`. -/
structure HostConfig where
  inherits : Option String
  roles : List String
  «variables» : Smap String
  dotfiles : List Dotfile
  packages : Packages
  hooks : List Hook
  secrets : Smap SecretMetadata
  mise : MiseSection
deriving Repr, DecidableEq

/-- `config.rs::Config`.

(`variables` is written `«variables»` because plain `variables` is a
reserved legacy command token in Lean.) -/
structure Config where
  «variables» : Smap String
  dotfiles : List Dotfile
  packages : Packages
  hosts : Smap HostConfig
  hooks : List Hook
  secrets : Smap SecretMetadata
  mise : MiseSection
deriving Repr, DecidableEq

/-- The merged config built by the body of `Config::with_host` once the
host was found: variables/secrets/mise are key-overwrite merges (host
wins), dotfiles/packages/hooks are list-appends (base first). -/
def Config.mergedWith (c : Config) (host : HostConfig) : Config :=
  { «variables» := c.«variables».overrideWith host.«variables»
    dotfiles := c.dotfiles ++ host.dotfiles
    packages :=
      { homebrew :=
          c.packages.normalized.homebrew ++ host.packages.normalized.homebrew
        brew := []
        cask := [] }
    hosts := c.hosts
    hooks := c.hooks ++ host.hooks
    secrets := c.secrets.overrideWith host.secrets
    mise := { tools := c.mise.tools.overrideWith host.mise.tools } }

/-- `Config::with_host`: fold one named host's overlay into the base
config; an unknown host name is an error. -/
def Config.with_host (c : Config) (host_name : String) :
    Except String Config :=
  match c.hosts.get? host_name with
  | none => .error ("Host '" ++ host_name ++ "' not found in config")
  | some host => .ok (c.mergedWith host)

/-!
## `src/diff.rs`: the diff engine

Ambient inputs of `DiffEngine` — the path expansion environment
(`expand_path_str`), the home directory (`directories::BaseDirs`), and the
set of installed Homebrew packages — are collected in a `DiffEnv`.  Paths in
this model are absolute component lists, so the relative-link-text branch of
`diff_dotfile` (joining link text against the target's parent) does not
arise; symlink destinations are always absolute.
-/

/-- `diff.rs::ResourceType`. -/
inductive ResourceType where
  | dotfile
  | package
deriving Repr, DecidableEq

/-- `diff.rs::Change`: the purely descriptive output of the diff engine. -/
inductive Change where
  | add (resource_type : ResourceType) (description : String)
  | modify (resource_type : ResourceType) (description : String) (reason : String)
  | alreadyCorrect (description : String)
deriving Repr, DecidableEq

/-- `fs::canonicalize`: fails if the path does not lead to an existing
entry, otherwise returns the fully resolved path. -/
def Fs.canonicalize (fs : Fs) (p : Path) : Except String Path :=
  match fs.resolveLink (fs.length + 1) p with
  | none => .error "ELOOP"
  | some q => if (fs.find q).isSome then .ok q else .error "No such file or directory"

/-- `str::trim_end_matches`, on reversed character lists, by fuel on the
string length (each round removes at least one character). -/
def trimEndMatchesAux : Nat → List Char → List Char → List Char
  | 0, rs, _ => rs
  | fuel + 1, rs, rsuf =>
    if rsuf.isEmpty = false && rsuf.isPrefixOf rs then
      trimEndMatchesAux fuel (rs.drop rsuf.length) rsuf
    else rs

/-- `str::trim_end_matches suf`: repeatedly strip the suffix `suf`. -/
def trimEndMatches (s suf : String) : String :=
  String.mk ((trimEndMatchesAux s.data.length s.data.reverse suf.data.reverse).reverse)

/-- The ambient environment of a diff/apply run: the path expander over the
current home directory and environment variables, the home directory itself,
and the `HomebrewManager`'s installed-package set. -/
structure DiffEnv where
  expand : String → Path
  home : Path
  installed : String → Bool

/-- The private render cache directory `~/.mimic/rendered`. -/
def renderedDirOf (home : Path) : Path := home ++ [".mimic", "rendered"]

/-- `DiffEngine::get_rendered_path`: the render-cache path keyed by the
source's base filename with the `.tmpl` then `.hbs` suffixes stripped. -/
def get_rendered_path (home : Path) (source : Path) : Except String Path :=
  match source.fileName with
  | none => .error ("Source path has no filename: " ++ source.display)
  | some fn =>
    .ok (renderedDirOf home ++ [trimEndMatches (trimEndMatches fn ".tmpl") ".hbs"])

/-- `DiffEngine::diff_dotfile`: expand both paths, fail if the source is
missing, then classify the target as `Add` (absent), `Modify` (present but
not a symlink, or a symlink to the wrong destination) or `AlreadyCorrect`
(symlink whose canonical destination equals the canonical expected
destination — the render-cache path for templates, the source otherwise). -/
def diff_dotfile (env : DiffEnv) (fs : Fs) (dotfile : Dotfile) :
    Except String Change := do
  let expanded_source := env.expand dotfile.source
  let expanded_target := env.expand dotfile.target
  if ¬ fs.existsPath expanded_source then
    .error ("Source file does not exist: " ++ expanded_source.display)
  else if ¬ fs.existsPath expanded_target then
    .ok (.add .dotfile
      (expanded_target.display ++ " → " ++ expanded_source.display))
  else if ¬ fs.isSymlink expanded_target then
    .ok (.modify .dotfile expanded_target.display "exists but is not a symlink")
  else do
    let current_link_target ← fs.readLink expanded_target
    let expected_path ←
      if dotfile.is_template then get_rendered_path env.home expanded_source
      else .ok expanded_source
    let canonical_expected ← fs.canonicalize expected_path
    let canonical_current :=
      match fs.canonicalize current_link_target with
      | .ok p => p
      | .error _ => current_link_target
    if canonical_expected = canonical_current then
      .ok (.alreadyCorrect expanded_target.display)
    else
      .ok (.modify .dotfile expanded_target.display
        ("points to wrong target: " ++ current_link_target.display))

/-- `DiffEngine::diff_package`: `AlreadyCorrect` if installed, else `Add`
(install is binary; no `Modify` for packages). -/
def diff_package (env : DiffEnv) (name : String) : Change :=
  if env.installed name then .alreadyCorrect ("brew package: " ++ name)
  else .add .package name

/-- The `for dotfile in &config.dotfiles { changes.push(self.diff_dotfile(dotfile)?) }`
loop of `DiffEngine::diff`: one `Change` per dotfile in declared order, the
first error aborting the whole loop. -/
def diffDotfiles (env : DiffEnv) (fs : Fs) :
    List Dotfile → Except String (List Change)
  | [] => .ok []
  | d :: rest => do
    let c ← diff_dotfile env fs d
    let cs ← diffDotfiles env fs rest
    return c :: cs

/-- `DiffEngine::diff`: one `Change` per dotfile (in declared order,
propagating the first dotfile error and aborting the whole diff), followed by
one `Change` per normalized package. -/
def DiffEngine.diff (env : DiffEnv) (fs : Fs) (config : Config) :
    Except String (List Change) := do
  let dotfileChanges ← diffDotfiles env fs config.dotfiles
  let packageChanges :=
    config.packages.normalized.homebrew.map (fun p => diff_package env p.name)
  return dotfileChanges ++ packageChanges

/-!
## `src/state.rs`: the state store

`DotfileState` carries the four fields of the spec's `DotfileRecord`
(`source`, `target`, `backup_path`, `rendered_path`); `rendered_path` is the
field written by `linker.rs::apply_template_dotfile` and read by
`cli.rs::run_undo` and the state tests (the copy of `state.rs` under
verification predates that field, so it is reconstructed from those uses and
the spec's `DotfileRecord`).  Timestamps (`chrono::DateTime`) are modelled as
a calendar record; the current time is an explicit parameter wherever the
code calls `now()`.  The persisted TOML document is modelled as a TOML value
tree: serde struct serialization emits a table with the fields in
declaration order, omitting `None` options, and deserialization looks fields
up by name, defaulting absent options to `None`.
-/

/-- A timestamp (`chrono::DateTime`), as calendar fields. -/
structure DateTime where
  year : Nat
  month : Nat
  day : Nat
  hour : Nat
  minute : Nat
  second : Nat
deriving Repr, DecidableEq

/-- `state.rs::DotfileState` (the spec's `DotfileRecord`). -/
structure DotfileState where
  source : String
  target : String
  backup_path : Option String
  rendered_path : Option String
deriving Repr, DecidableEq

/-- `state.rs::PackageState` (the spec's `PackageRecord`). -/
structure PackageState where
  name : String
  manager : String
deriving Repr, DecidableEq

/-- `state.rs::State`. -/
structure State where
  applied_commit : Option String
  applied_at : DateTime
  dotfiles : List DotfileState
  packages : List PackageState
deriving Repr, DecidableEq

namespace State

/-- `State::new` (the ambient `Utc::now()` is the explicit `now`). -/
def new (now : DateTime) : State :=
  { applied_commit := none, applied_at := now, dotfiles := [], packages := [] }

/-- `State::add_dotfile`: push the record and refresh `applied_at`. -/
def add_dotfile (s : State) (now : DateTime) (dotfile : DotfileState) : State :=
  { s with dotfiles := s.dotfiles ++ [dotfile], applied_at := now }

/-- `State::add_package`: push the record and refresh `applied_at`. -/
def add_package (s : State) (now : DateTime) (package : PackageState) : State :=
  { s with packages := s.packages ++ [package], applied_at := now }

/-- `State::clear`: drop the commit and both record lists, refresh
`applied_at`. -/
def clear (_s : State) (now : DateTime) : State :=
  { applied_commit := none, applied_at := now, dotfiles := [], packages := [] }

/-- The spec's `State` invariant: a target path appears at most once across
the `DotfileRecord`s of the state. -/
def targetUnique (s : State) : Prop :=
  s.dotfiles.Pairwise (fun a b => a.target ≠ b.target)

instance (s : State) : Decidable s.targetUnique := by
  unfold State.targetUnique
  exact List.instDecidablePairwise s.dotfiles

end State

/-- A TOML value, as far as the state file needs: strings, datetimes,
arrays, and tables. -/
inductive Toml where
  | str (s : String)
  | datetime (d : DateTime)
  | array (xs : List Toml)
  | table (kvs : List (String × Toml))
deriving Repr

namespace Toml

/-- Read a required string field of a table. -/
def getStr (kvs : List (String × Toml)) (k : String) : Option String :=
  match kvs.lookup k with
  | some (.str s) => some s
  | _ => none

/-- Read an `Option<String>` field of a table: an absent key is `None`, a
present non-string value is a type error. -/
def getOptStr (kvs : List (String × Toml)) (k : String) : Option (Option String) :=
  match kvs.lookup k with
  | none => some none
  | some (.str s) => some (some s)
  | some _ => none

/-- Read a required datetime field of a table. -/
def getDatetime (kvs : List (String × Toml)) (k : String) : Option DateTime :=
  match kvs.lookup k with
  | some (.datetime d) => some d
  | _ => none

/-- Read a required array field of a table. -/
def getArray (kvs : List (String × Toml)) (k : String) : Option (List Toml) :=
  match kvs.lookup k with
  | some (.array xs) => some xs
  | _ => none

end Toml

/-- Decode every element of a TOML array (serde's `Vec` deserialization):
any failing element fails the whole array. -/
def decodeList {A : Type} (dec : Toml → Option A) : List Toml → Option (List A)
  | [] => some []
  | x :: xs => do
    let a ← dec x
    let rest ← decodeList dec xs
    some (a :: rest)

/-- The serde serialization of a `DotfileState`: fields in declaration
order, `None` options omitted. -/
def encodeDotfileState (d : DotfileState) : Toml :=
  .table
    ([("source", .str d.source), ("target", .str d.target)]
      ++ (match d.backup_path with
          | some b => [("backup_path", Toml.str b)]
          | none => [])
      ++ (match d.rendered_path with
          | some r => [("rendered_path", Toml.str r)]
          | none => []))

/-- The serde deserialization of a `DotfileState`. -/
def decodeDotfileState : Toml → Option DotfileState
  | .table kvs => do
    let source ← Toml.getStr kvs "source"
    let target ← Toml.getStr kvs "target"
    let backup_path ← Toml.getOptStr kvs "backup_path"
    let rendered_path ← Toml.getOptStr kvs "rendered_path"
    some { source, target, backup_path, rendered_path }
  | _ => none

/-- The serde serialization of a `PackageState`. -/
def encodePackageState (p : PackageState) : Toml :=
  .table [("name", .str p.name), ("manager", .str p.manager)]

/-- The serde deserialization of a `PackageState`. -/
def decodePackageState : Toml → Option PackageState
  | .table kvs => do
    let name ← Toml.getStr kvs "name"
    let manager ← Toml.getStr kvs "manager"
    some { name, manager }
  | _ => none

/-- The serde serialization of a `State` (what `toml::to_string_pretty`
writes): `applied_commit` omitted when `None`, then `applied_at`, then the
two record arrays. -/
def encodeState (s : State) : Toml :=
  .table
    ((match s.applied_commit with
      | some c => [("applied_commit", Toml.str c)]
      | none => [])
      ++ [("applied_at", .datetime s.applied_at),
          ("dotfiles", .array (s.dotfiles.map encodeDotfileState)),
          ("packages", .array (s.packages.map encodePackageState))])

/-- The serde deserialization of a `State` (what `toml::from_str` parses). -/
def decodeState : Toml → Option State
  | .table kvs => do
    let applied_commit ← Toml.getOptStr kvs "applied_commit"
    let applied_at ← Toml.getDatetime kvs "applied_at"
    let dotfiles ← decodeList decodeDotfileState (← Toml.getArray kvs "dotfiles")
    let packages ← decodeList decodePackageState (← Toml.getArray kvs "packages")
    some { applied_commit, applied_at, dotfiles, packages }
  | _ => none

/-- `State::load`, over the state file's content (`none`: no file).  A
missing file yields a fresh empty state; a file that does not parse as a
`State` is an `InvalidData` error. -/
def State.load (now : DateTime) (file : Option Toml) : Except String State :=
  match file with
  | none => .ok (State.new now)
  | some t =>
    match decodeState t with
    | some s => .ok s
    | none => .error "invalid data"

/-- `State::save`: the net effect of the atomic write-temp-sync-rename
sequence is that the state file now holds the serialized state. -/
def State.save (s : State) : Option Toml :=
  some (encodeState s)

/-!
## `src/linker.rs`: conflict resolution and symlink management

The interactive `dialoguer::Select` of `resolve_conflict` is an external
boundary: the user's selection is passed in as an explicit
`ConflictResolution` value (`cli.rs::run_apply` pre-pins
`ApplyToAllChoice::Backup` for unattended `--yes` runs, so the prompt is
never reached there).
-/

/-- `linker.rs::ApplyToAllChoice`. -/
inductive ApplyToAllChoice where
  | skip
  | overwrite
  | backup
deriving Repr, DecidableEq

/-- `linker.rs::ConflictResolution`. -/
inductive ConflictResolution where
  | skip
  | overwrite
  | backup
  | applyToAll (choice : ApplyToAllChoice)
deriving Repr, DecidableEq

/-- `template.rs::HostContext`. -/
structure HostContext where
  name : String
  roles : List String
deriving Repr, DecidableEq

/-- Zero-pad a number to `w` digits, as chrono's `%Y`/`%m`/`%d`/`%H`/`%M`/
`%S` format specifiers do. -/
def padNum (w n : Nat) : String :=
  let s := toString n
  String.mk (List.replicate (w - s.length) '0') ++ s

/-- The `Local::now().format("%Y%m%d_%H%M%S")` timestamp of
`linker.rs::backup_file`. -/
def formatTimestamp (now : DateTime) : String :=
  padNum 4 now.year ++ padNum 2 now.month ++ padNum 2 now.day ++ "_" ++
    padNum 2 now.hour ++ padNum 2 now.minute ++ padNum 2 now.second

/-- `fs::remove_file`. -/
def Fs.removeFile (fs : Fs) (p : Path) : Except String Fs :=
  match fs.find p with
  | some .dir => .error "is a directory"
  | some _ => .ok (fs.erase p)
  | none => .error "No such file or directory"

/-- `linker.rs::backup_file`: compute the sibling
`<file-name>.backup.<timestamp>` path; real (non-symlinked) directories are
atomically renamed there, everything else is copied. -/
def backup_file (fs : Fs) (now : DateTime) (target : Path) :
    Except String (Fs × Path) := do
  let backup_name ←
    match target.fileName with
    | none => Except.error "Invalid target path"
    | some fn => pure (fn ++ ".backup." ++ formatTimestamp now)
  let backup_path := target.parent ++ [backup_name]
  if fs.isDir target && ¬ fs.isSymlink target then
    return (fs.rename target backup_path, backup_path)
  else do
    let fs' ← fs.copy target backup_path
    return (fs', backup_path)

/-- `linker.rs::remove_target`: recursive removal for real directories,
`remove_file` for files and symlinks. -/
def remove_target (fs : Fs) (target : Path) : Except String Fs :=
  if fs.isDir target && ¬ fs.isSymlink target then
    .ok (fs.removeDirAll target)
  else
    fs.removeFile target

/-- `linker.rs::resolve_conflict`: an active apply-to-all pin decides
without prompting; otherwise the interactive selection `prompt` is used, and
choosing apply-to-all sets the pin for the rest of the run. -/
def resolve_conflict (apply_to_all : Option ApplyToAllChoice)
    (prompt : ConflictResolution) :
    ConflictResolution × Option ApplyToAllChoice :=
  match apply_to_all with
  | some .skip => (.skip, apply_to_all)
  | some .overwrite => (.overwrite, apply_to_all)
  | some .backup => (.backup, apply_to_all)
  | none =>
    match prompt with
    | .applyToAll choice => (.applyToAll choice, some choice)
    | r => (r, none)

/-- The `Backup` arm shared (verbatim in the source) by the `Backup` and
`ApplyToAll(Backup)` cases: back the target up only if it has readable
content (not a dangling symlink), then remove whatever of it remains
(directory backups used a rename, so there may be nothing left). -/
def backupBranch (fs : Fs) (now : DateTime) (expanded_target : Path) :
    Except String (Fs × Option String) := do
  let (fs1, backup_path_str) ←
    if fs.existsPath expanded_target then do
      let (fs', backup_path) ← backup_file fs now expanded_target
      pure (fs', some backup_path.display)
    else pure (fs, (none : Option String))
  if fs1.existsPath expanded_target || fs1.isSymlink expanded_target then do
    let fs2 ← remove_target fs1 expanded_target
    return (fs2, backup_path_str)
  else
    return (fs1, backup_path_str)

/-- The tail of `create_symlink_with_resolution` after conflict handling:
the `symlink` call (note: no parent-directory creation on this path)
followed by `state.add_dotfile` with `rendered_path: None`. -/
def finishLink (now : DateTime) (fs : Fs) (state : State)
    (expanded_source expanded_target : Path) (backup_path_str : Option String)
    (a : Option ApplyToAllChoice) :
    Except String (Fs × State × Option ApplyToAllChoice) := do
  let fs' ← fs.symlinkOp expanded_source expanded_target
  let state' := state.add_dotfile now
    { source := expanded_source.display
      target := expanded_target.display
      backup_path := backup_path_str
      rendered_path := none }
  return (fs', state', a)

/-- `linker.rs::create_symlink_with_resolution`: expand both paths, fail on
a missing source, run conflict resolution when the target is occupied
(`Skip` returns `Ok` at once, mutating nothing), then symlink and record. -/
def create_symlink_with_resolution (env : DiffEnv) (now : DateTime)
    (prompt : ConflictResolution) (fs : Fs) (state : State)
    (source target : String) (apply_to_all : Option ApplyToAllChoice) :
    Except String (Fs × State × Option ApplyToAllChoice) := do
  let expanded_source := env.expand source
  let expanded_target := env.expand target
  if ¬ fs.existsPath expanded_source then
    .error ("Source file does not exist: " ++ expanded_source.display)
  else if fs.existsPath expanded_target || fs.isSymlink expanded_target then
    let (resolution, a2) := resolve_conflict apply_to_all prompt
    match resolution with
    | .skip | .applyToAll .skip =>
      return (fs, state, a2)
    | .overwrite | .applyToAll .overwrite => do
      let fs1 ← remove_target fs expanded_target
      finishLink now fs1 state expanded_source expanded_target none a2
    | .backup | .applyToAll .backup => do
      let (fs1, backup_path_str) ← backupBranch fs now expanded_target
      finishLink now fs1 state expanded_source expanded_target backup_path_str a2
  else
    finishLink now fs state expanded_source expanded_target none apply_to_all

/-- `linker.rs::create_symlink`: resolution with no standing pin. -/
def create_symlink (env : DiffEnv) (now : DateTime)
    (prompt : ConflictResolution) (fs : Fs) (state : State)
    (source target : String) :
    Except String (Fs × State × Option ApplyToAllChoice) :=
  create_symlink_with_resolution env now prompt fs state source target none

/-- The tail of `apply_template_dotfile` after conflict handling: ensure the
target's parent directory exists (`fs::create_dir_all`), symlink the
rendered cache file into place, and record the dotfile with its
`rendered_path`. -/
def finishTemplateLink (now : DateTime) (fs : Fs) (state : State)
    (source target temp_path : Path) (backup_path_str : Option String)
    (a : Option ApplyToAllChoice) :
    Except String (Fs × State × Option ApplyToAllChoice) := do
  let fs1 ← fs.mkdirAll target.parent
  let fs2 ← fs1.symlinkOp temp_path target
  let state' := state.add_dotfile now
    { source := source.display
      target := target.display
      backup_path := backup_path_str
      rendered_path := some temp_path.display }
  return (fs2, state', a)

/-- `linker.rs::apply_template_dotfile`: render the source through the
external template engine (`render` is that collaborator), write the result
into the `~/.mimic/rendered` cache keyed by the suffix-stripped source
filename, then run the same conflict-resolution protocol against the target
and symlink the cache file into place. -/
def apply_template_dotfile (env : DiffEnv)
    (render : Path → Smap String → HostContext → Except String String)
    (now : DateTime) (prompt : ConflictResolution) (fs : Fs) (state : State)
    (dotfile : Dotfile) (config : Config) (host_context : HostContext)
    (apply_to_all : Option ApplyToAllChoice) :
    Except String (Fs × State × Option ApplyToAllChoice) := do
  let source := env.expand dotfile.source
  let target := env.expand dotfile.target
  let rendered ← render source config.«variables» host_context
  let rendered_dir := renderedDirOf env.home
  let fs0 ← fs.mkdirAll rendered_dir
  let filename ←
    match source.fileName with
    | none => Except.error "source has no filename"
    | some fn => pure (trimEndMatches (trimEndMatches fn ".tmpl") ".hbs")
  let temp_path := rendered_dir ++ [filename]
  let fs1 ← fs0.writeFile temp_path rendered
  if fs1.existsPath target || fs1.isSymlink target then
    let (resolution, a2) := resolve_conflict apply_to_all prompt
    match resolution with
    | .skip | .applyToAll .skip =>
      return (fs1, state, a2)
    | .overwrite | .applyToAll .overwrite => do
      let fs2 ← remove_target fs1 target
      finishTemplateLink now fs2 state source target temp_path none a2
    | .backup | .applyToAll .backup => do
      let (fs2, backup_path_str) ← backupBranch fs1 now target
      finishTemplateLink now fs2 state source target temp_path backup_path_str a2
  else
    finishTemplateLink now fs1 state source target temp_path none apply_to_all

/-- `linker.rs::apply_dotfile`: dispatch on `Dotfile::is_template`
(`apply_regular_dotfile` is inlined: it just forwards the raw config paths
to `create_symlink_with_resolution`). -/
def apply_dotfile (env : DiffEnv)
    (render : Path → Smap String → HostContext → Except String String)
    (now : DateTime) (prompt : ConflictResolution) (fs : Fs) (state : State)
    (dotfile : Dotfile) (config : Config) (host_context : HostContext)
    (apply_to_all : Option ApplyToAllChoice) :
    Except String (Fs × State × Option ApplyToAllChoice) :=
  if dotfile.is_template then
    apply_template_dotfile env render now prompt fs state dotfile config
      host_context apply_to_all
  else
    create_symlink_with_resolution env now prompt fs state dotfile.source
      dotfile.target apply_to_all

/-!
## `src/cli.rs`: the diff, apply and undo pipelines
-/

/-- Split a character list on `/` separators. -/
def splitSlash : List Char → List Char → List (List Char)
  | [], cur => [cur.reverse]
  | c :: rest, cur =>
    if c = '/' then cur.reverse :: splitSlash rest []
    else splitSlash rest (c :: cur)

/-- Parse a displayed absolute path string back into components
(`PathBuf::from` on the strings stored in `State` records). -/
def Path.parse (s : String) : Path :=
  ((splitSlash s.toList []).map (fun cs => String.mk cs)).filter
    (fun c => c ≠ "")

/-- The role filtering `run_diff` performs before handing the merged config
to `DiffEngine::diff` (cli.rs:290–317): keep only the dotfiles and
`homebrew` packages whose role filter passes for the host's roles. -/
def filterConfigForRoles (config : Config) (host_roles : List String) : Config :=
  { config with
    dotfiles := config.dotfiles.filter (fun df =>
      should_apply_for_roles df.only_roles df.skip_roles host_roles)
    packages :=
      { homebrew := config.packages.homebrew.filter (fun pkg =>
          should_apply_for_roles pkg.only_roles pkg.skip_roles host_roles)
        brew := []
        cask := [] } }

/-- The `Change` list the `diff` command computes: `DiffEngine::diff` over
the role-filtered merged config. -/
def runDiffChanges (env : DiffEnv) (fs : Fs) (config : Config)
    (host_roles : List String) : Except String (List Change) :=
  DiffEngine.diff env fs (filterConfigForRoles config host_roles)

/-- The `Change` list `run_apply` computes and prints before applying
(cli.rs:358): `DiffEngine::diff` over the merged config, with no role
filtering applied first. -/
def runApplyPreviewChanges (env : DiffEnv) (fs : Fs) (config : Config) :
    Except String (List Change) :=
  DiffEngine.diff env fs config

/-- One iteration of `run_apply`'s dotfile loop (cli.rs:417–457): a dotfile
whose role filter rejects the host's roles is skipped before any linking; an
error from `apply_dotfile` is reported per-resource and (in unattended
`--yes` runs) the loop continues.  In the error arm the model keeps the
pre-resource filesystem; no claim concerns the filesystem left behind by a
failed resource. -/
def applyLoopStep (env : DiffEnv)
    (render : Path → Smap String → HostContext → Except String String)
    (now : DateTime) (prompt : ConflictResolution) (config : Config)
    (host_context : HostContext)
    (acc : Fs × State × Option ApplyToAllChoice) (dotfile : Dotfile) :
    Fs × State × Option ApplyToAllChoice :=
  let (fs, state, apply_to_all) := acc
  if ¬ should_apply_for_roles dotfile.only_roles dotfile.skip_roles
      host_context.roles then
    (fs, state, apply_to_all)
  else
    match apply_dotfile env render now prompt fs state dotfile config
        host_context apply_to_all with
    | .ok r => r
    | .error _ => (fs, state, apply_to_all)

/-- `run_apply`'s dotfile loop: fold `applyLoopStep` over the merged
config's dotfiles in declared order. -/
def applyDotfiles (env : DiffEnv)
    (render : Path → Smap String → HostContext → Except String String)
    (now : DateTime) (prompt : ConflictResolution) (config : Config)
    (host_context : HostContext) (fs : Fs) (state : State)
    (apply_to_all : Option ApplyToAllChoice) :
    Fs × State × Option ApplyToAllChoice :=
  config.dotfiles.foldl (applyLoopStep env render now prompt config host_context)
    (fs, state, apply_to_all)

/-- The accumulator of `run_undo`'s record loop. -/
structure UndoCounters where
  fs : Fs
  symlinks_removed : Nat
  backups_restored : Nat
  errors : List String
deriving Repr

/-- One iteration of `run_undo`'s record loop (cli.rs:768–856): remove the
target if it exists or dangles (failure recorded, non-fatal), copy the
backup over the target if one is recorded and still exists (failure
recorded, non-fatal), and best-effort-delete the rendered cache file
(failures swallowed). -/
def undoRecordStep (c : UndoCounters) (record : DotfileState) : UndoCounters :=
  let target := Path.parse record.target
  let c1 :=
    if c.fs.existsPath target || c.fs.isSymlink target then
      match c.fs.removeFile target with
      | .ok fs' =>
        { c with fs := fs', symlinks_removed := c.symlinks_removed + 1 }
      | .error e =>
        { c with errors :=
            c.errors ++ ["Failed to remove symlink " ++ target.display ++ ": " ++ e] }
    else c
  let c2 :=
    match record.backup_path with
    | some bp =>
      let backup_path := Path.parse bp
      if c1.fs.existsPath backup_path then
        match c1.fs.copy backup_path target with
        | .ok fs' =>
          { c1 with fs := fs', backups_restored := c1.backups_restored + 1 }
        | .error e =>
          { c1 with errors :=
              c1.errors ++ ["Failed to restore backup from " ++ backup_path.display
                ++ " to " ++ target.display ++ ": " ++ e] }
      else c1
    | none => c1
  match record.rendered_path with
  | some rp =>
    let rendered_path := Path.parse rp
    if c2.fs.existsPath rendered_path then
      match c2.fs.removeFile rendered_path with
      | .ok fs' => { c2 with fs := fs' }
      | .error _ => c2
    else c2
  | none => c2

/-- The outcome of the `undo` command: its headline message, the filesystem,
the state file, and the report counters. -/
structure UndoResult where
  message : String
  fs : Fs
  stateFile : Option Toml
  symlinks_removed : Nat
  backups_restored : Nat
  errors : List String

/-- `cli.rs::run_undo`: a state file that is absent, empty of records, or
unparseable reports `"Nothing to undo."` and returns success at once;
otherwise every record is processed in list order and a cleared `State` is
saved over the state file. -/
def run_undo (now : DateTime) (stateFile : Option Toml) (fs : Fs) : UndoResult :=
  match State.load now stateFile with
  | .error _ =>
    { message := "Nothing to undo.", fs := fs, stateFile := stateFile
      symlinks_removed := 0, backups_restored := 0, errors := [] }
  | .ok state =>
    if state.dotfiles.isEmpty && state.packages.isEmpty then
      { message := "Nothing to undo.", fs := fs, stateFile := stateFile
        symlinks_removed := 0, backups_restored := 0, errors := [] }
    else
      let c := state.dotfiles.foldl undoRecordStep
        { fs := fs, symlinks_removed := 0, backups_restored := 0, errors := [] }
      let new_state := (State.new now).clear now
      { message :=
          if c.errors.isEmpty then "✓ Successfully undone last apply"
          else "⚠ Undo completed with errors"
        fs := c.fs
        stateFile := new_state.save
        symlinks_removed := c.symlinks_removed
        backups_restored := c.backups_restored
        errors := c.errors }

/-!
## Filesystem lemmas
-/

namespace Fs

theorem find_erase_self (fs : Fs) (p : Path) : (fs.erase p).find p = none := by
  induction fs with
  | nil => rfl
  | cons pe rest ih =>
    obtain ⟨q, e⟩ := pe
    by_cases h : q = p
    · subst h
      simpa [erase, find, List.lookup] using ih
    · have hbeq : (p == q) = false := by simp [Ne.symm h]
      simpa [erase, find, List.lookup, h, hbeq] using ih

theorem find_erase_ne (fs : Fs) (p q : Path) (h : q ≠ p) :
    (fs.erase p).find q = fs.find q := by
  induction fs with
  | nil => rfl
  | cons pe rest ih =>
    obtain ⟨r, e⟩ := pe
    by_cases hr : r = p
    · subst hr
      have hbeq : (q == r) = false := by simp [h]
      simpa [erase, find, List.lookup, hbeq] using ih
    · by_cases hq : q = r
      · subst hq
        simp [erase, find, List.lookup, hr]
      · have hbeq : (q == r) = false := by simp [hq]
        simpa [erase, find, List.lookup, hr, hbeq] using ih

theorem find_insert_self (fs : Fs) (p : Path) (e : Entry) :
    (fs.insert p e).find p = some e := by
  simp [insert, find, List.lookup]

theorem find_insert_ne (fs : Fs) (p q : Path) (e : Entry) (h : q ≠ p) :
    (fs.insert p e).find q = fs.find q := by
  have hbeq : (q == p) = false := by simp [h]
  simp only [insert, find, List.lookup, hbeq]
  exact find_erase_ne fs p q h

theorem resolveLink_of_file (fs : Fs) (p : Path) (c : String) (fuel : Nat)
    (h : fs.find p = some (.file c)) :
    fs.resolveLink (fuel + 1) p = some p := by
  simp [resolveLink, h]

theorem resolveLink_of_dir (fs : Fs) (p : Path) (fuel : Nat)
    (h : fs.find p = some .dir) :
    fs.resolveLink (fuel + 1) p = some p := by
  simp [resolveLink, h]

theorem resolveLink_of_none (fs : Fs) (p : Path) (fuel : Nat)
    (h : fs.find p = none) :
    fs.resolveLink (fuel + 1) p = some p := by
  simp [resolveLink, h]

theorem existsPath_of_find_file (fs : Fs) (p : Path) (c : String)
    (h : fs.find p = some (.file c)) : fs.existsPath p = true := by
  simp [existsPath, resolveLink_of_file fs p c fs.length h, h]

theorem existsPath_of_find_dir (fs : Fs) (p : Path)
    (h : fs.find p = some .dir) : fs.existsPath p = true := by
  simp [existsPath, resolveLink_of_dir fs p fs.length h, h]

theorem existsPath_of_find_none (fs : Fs) (p : Path)
    (h : fs.find p = none) : fs.existsPath p = false := by
  simp [existsPath, resolveLink_of_none fs p fs.length h, h]

theorem isSymlink_of_find_file (fs : Fs) (p : Path) (c : String)
    (h : fs.find p = some (.file c)) : fs.isSymlink p = false := by
  simp [isSymlink, h]

theorem isSymlink_of_find_none (fs : Fs) (p : Path)
    (h : fs.find p = none) : fs.isSymlink p = false := by
  simp [isSymlink, h]

theorem isDir_of_find_file (fs : Fs) (p : Path) (c : String) (hp : p ≠ [])
    (h : fs.find p = some (.file c)) : fs.isDir p = false := by
  simp [isDir, hp, resolveLink_of_file fs p c fs.length h, h]

theorem isDir_of_find_dir (fs : Fs) (p : Path)
    (h : fs.find p = some .dir) : fs.isDir p = true := by
  simp [isDir, resolveLink_of_dir fs p fs.length h, h]

theorem isDir_root (fs : Fs) : fs.isDir [] = true := by
  simp [isDir]

end Fs

/-!
## Path and timestamp lemmas
-/

theorem Path.parent_append_singleton (p : Path) (x : String) :
    Path.parent (p ++ [x]) = p := by
  simp [Path.parent]

theorem Path.append_singleton_ne (p : Path) (x : String) : p ++ [x] ≠ p := by
  intro h
  have := congrArg List.length h
  simp at this

theorem Path.parent_ne_self (t : Path) (h : t ≠ []) : Path.parent t ≠ t := by
  intro heq
  have hlen := congrArg List.length heq
  rw [Path.parent, List.length_dropLast] at hlen
  have : t.length ≠ 0 := by
    intro h0
    exact h (List.length_eq_zero.mp h0)
  omega

theorem Path.parent_ne_append_singleton (p : Path) (x : String) :
    p ≠ p ++ [x] := fun h => Path.append_singleton_ne p x h.symm

theorem Path.ne_nil_of_fileName (t : Path) (fn : String)
    (h : Path.fileName t = some fn) : t ≠ [] := by
  intro heq
  subst heq
  simp [Path.fileName] at h

theorem padNum_length (w n : Nat) (hw : 0 < w) (h : n < 10 ^ w) :
    (padNum w n).length = w := by
  have hlen : (Nat.repr n).length ≤ w := Nat.repr_length n w hw h
  have htoString : (toString n).length ≤ w := hlen
  simp only [padNum, String.length_append]
  rw [show (String.mk (List.replicate (w - (toString n).length) '0')).length
      = w - (toString n).length by simp]
  omega

theorem formatTimestamp_length (now : DateTime) (hy : now.year < 10000)
    (hmo : now.month < 100) (hd : now.day < 100) (hh : now.hour < 100)
    (hmi : now.minute < 100) (hs : now.second < 100) :
    (formatTimestamp now).length = 15 := by
  simp only [formatTimestamp, String.length_append,
    padNum_length 4 now.year (by omega) hy,
    padNum_length 2 now.month (by omega) hmo,
    padNum_length 2 now.day (by omega) hd,
    padNum_length 2 now.hour (by omega) hh,
    padNum_length 2 now.minute (by omega) hmi,
    padNum_length 2 now.second (by omega) hs]
  rfl

/-!
## Association-map lemmas
-/

theorem Smap.get?_cons_self {V} (rest : Smap V) (k : String) (v : V) :
    Smap.get? ((k, v) :: rest) k = some v := by
  simp [Smap.get?, List.lookup]

theorem Smap.get?_cons_ne {V} (rest : Smap V) (a k : String) (b : V)
    (h : k ≠ a) : Smap.get? ((a, b) :: rest) k = Smap.get? rest k := by
  have hbeq : (k == a) = false := by simp [h]
  simp [Smap.get?, List.lookup, hbeq]

theorem Smap.insert_cons_self {V} (rest : Smap V) (k : String) (v v' : V) :
    Smap.insert ((k, v') :: rest) k v = (k, v) :: rest := by
  simp [Smap.insert]

theorem Smap.insert_cons_ne {V} (rest : Smap V) (a k : String) (b : V) (v : V)
    (h : a ≠ k) :
    Smap.insert ((a, b) :: rest) k v = (a, b) :: Smap.insert rest k v := by
  simp [Smap.insert, h]

theorem Smap.get?_insert_self {V} (m : Smap V) (k : String) (v : V) :
    (Smap.insert m k v).get? k = some v := by
  induction m with
  | nil => simp [Smap.insert, Smap.get?, List.lookup]
  | cons kv rest ih =>
    obtain ⟨k', v'⟩ := kv
    by_cases h : k' = k
    · subst h
      rw [Smap.insert_cons_self, Smap.get?_cons_self]
    · rw [Smap.insert_cons_ne rest k' k v' v h,
        Smap.get?_cons_ne _ _ _ _ (Ne.symm h)]
      exact ih

theorem Smap.get?_insert_ne {V} (m : Smap V) (k k' : String) (v : V)
    (h : k' ≠ k) : (Smap.insert m k v).get? k' = m.get? k' := by
  induction m with
  | nil =>
    have hbeq : (k' == k) = false := by simp [h]
    simp [Smap.insert, Smap.get?, List.lookup, hbeq]
  | cons kv rest ih =>
    obtain ⟨a, b⟩ := kv
    by_cases ha : a = k
    · subst ha
      rw [Smap.insert_cons_self, Smap.get?_cons_ne _ _ _ _ h,
        Smap.get?_cons_ne _ _ _ _ h]
    · rw [Smap.insert_cons_ne rest a k b v ha]
      by_cases hk' : k' = a
      · subst hk'
        rw [Smap.get?_cons_self, Smap.get?_cons_self]
      · rw [Smap.get?_cons_ne _ _ _ _ hk', Smap.get?_cons_ne _ _ _ _ hk']
        exact ih

theorem Smap.get?_eq_none_of_not_mem {V} (m : Smap V) (k : String)
    (h : k ∉ m.map Prod.fst) : m.get? k = none := by
  induction m with
  | nil => simp [Smap.get?, List.lookup]
  | cons kv rest ih =>
    obtain ⟨a, b⟩ := kv
    have hka : k ≠ a := by
      intro hk; exact h (by simp [hk])
    rw [Smap.get?_cons_ne _ _ _ _ hka]
    exact ih (fun hmem => h (by simp [hmem]))

theorem Smap.get?_overrideWith {V} (base ov : Smap V) (k : String)
    (h : (ov.map Prod.fst).Nodup) :
    (base.overrideWith ov).get? k =
      match ov.get? k with
      | some v => some v
      | none => base.get? k := by
  induction ov generalizing base with
  | nil => simp [Smap.overrideWith, Smap.get?, List.lookup]
  | cons kv rest ih =>
    obtain ⟨a, b⟩ := kv
    have hnodup : (rest.map Prod.fst).Nodup := by
      simpa using (List.nodup_cons.mp (by simpa using h)).2
    have ha : a ∉ rest.map Prod.fst :=
      (List.nodup_cons.mp (by simpa using h)).1
    rw [show (base.overrideWith ((a, b) :: rest))
        = ((Smap.insert base a b).overrideWith rest) from rfl]
    by_cases hk : k = a
    · subst hk
      rw [ih _ hnodup, Smap.get?_eq_none_of_not_mem rest k ha,
        Smap.get?_insert_self, Smap.get?_cons_self]
    · rw [ih _ hnodup, Smap.get?_insert_ne _ _ _ _ hk,
        Smap.get?_cons_ne _ _ _ _ hk]

/-!
## Concrete instances used by witnesses and counterexamples
-/

/-- A concrete ambient environment: expansion parses the (already absolute,
variable-free) config paths, home is `/home/u`, nothing is installed. -/
def envC : DiffEnv :=
  { expand := Path.parse, home := ["home", "u"], installed := fun _ => false }

/-- A concrete timestamp. -/
def nowC : DateTime :=
  { year := 2025, month := 3, day := 14, hour := 15, minute := 9, second := 26 }

/-- A concrete template renderer collaborator: renders to a fixed string. -/
def renderC : Path → Smap String → HostContext → Except String String :=
  fun _ _ _ => .ok "rendered output"

/-- A work-only dotfile, as in the spec's Scenario C. -/
def workDotfile : Dotfile :=
  { source := "/repo/work.conf", target := "/home/u/.work.conf"
    template := false, only_roles := some ["work"], skip_roles := none }

/-- An empty package set. -/
def noPackages : Packages := { homebrew := [], brew := [], cask := [] }

/-- A merged config containing only the work-only dotfile. -/
def workConfig : Config :=
  { «variables» := [], dotfiles := [workDotfile], packages := noPackages
    hosts := [], hooks := [], secrets := [], mise := { tools := [] } }

/-- A filesystem where the work-only dotfile's source exists and its target
is absent. -/
def workFs : Fs :=
  [(["repo", "work.conf"], .file "work config"),
   (["home", "u"], .dir),
   (["repo"], .dir)]

/-- A dotfile record for `/home/u/.vimrc`. -/
def dupRecord : DotfileState :=
  { source := "/repo/vimrc", target := "/home/u/.vimrc"
    backup_path := none, rendered_path := none }

/-- A record with a target distinct from `dupRecord`'s. -/
def freshRecord : DotfileState :=
  { source := "/repo/zshrc", target := "/home/u/.zshrc"
    backup_path := none, rendered_path := none }

/-- A state already holding a record for `/home/u/.vimrc` (as a second apply
run holds after `State::load`). -/
def dupState : State :=
  { applied_commit := none, applied_at := nowC
    dotfiles := [dupRecord], packages := [] }

/-- A state-file content that exists but cannot be parsed as a `State`. -/
def badStateToml : Toml := .str "this is not a state file"

/-- The host context of a host with the `personal` role only. -/
def personalCtx : HostContext := { name := "laptop", roles := ["personal"] }

/-- A filesystem where both the source and the target of `/home/u/.vimrc`
exist (a conflict). -/
def conflictFs : Fs :=
  [(["repo", "vimrc"], .file "new content"),
   (["home", "u", ".vimrc"], .file "old content"),
   (["home", "u"], .dir),
   (["repo"], .dir)]

/-- A dotfile whose source does not exist in `workFs`. -/
def missingSourceDotfile : Dotfile :=
  { source := "/repo/absent.conf", target := "/home/u/.absent.conf"
    template := false, only_roles := none, skip_roles := none }

/-- A config declaring a healthy dotfile first and then one with a missing
source. -/
def missingSourceConfig : Config :=
  { «variables» := [], dotfiles := [workDotfile, missingSourceDotfile]
    packages := noPackages, hosts := [], hooks := [], secrets := []
    mise := { tools := [] } }

/-- A filesystem where a regular dotfile's source exists but the target's
parent directory `/home/u/.config/app` does not. -/
def noParentFs : Fs :=
  [(["repo", "zshrc"], .file "zsh config"),
   (["repo"], .dir),
   (["home", "u"], .dir),
   (["home"], .dir)]

/-- A template dotfile (by its `.tmpl` suffix) whose target's parent
directory does not exist in `tmplFs`. -/
def tmplDotfile : Dotfile :=
  { source := "/repo/zshrc.tmpl", target := "/home/u/.config/app/rc"
    template := false, only_roles := none, skip_roles := none }

/-- A filesystem with the template source present and neither the render
cache nor the target's parent directory existing yet. -/
def tmplFs : Fs :=
  [(["repo", "zshrc.tmpl"], .file "template source"),
   (["repo"], .dir),
   (["home", "u"], .dir),
   (["home"], .dir)]

/-- A host overlay: overrides variable `k`, adds one dotfile and one hook. -/
def hostC : HostConfig :=
  { inherits := none, roles := ["work"]
    «variables» := [("k", "v2")]
    dotfiles := [workDotfile]
    packages := { homebrew := [], brew := ["jq"], cask := [] }
    hooks := [.mise none none]
    secrets := [], mise := { tools := [] } }

/-- A base config declaring variables `k=v1`, `j=b`, one dotfile, one brew
package, one hook, and the host `work-laptop`. -/
def baseC : Config :=
  { «variables» := [("k", "v1"), ("j", "b")]
    dotfiles := [{ source := "/repo/vimrc", target := "/home/u/.vimrc"
                   template := false, only_roles := none, skip_roles := none }]
    packages := { homebrew := [], brew := ["ripgrep"], cask := [] }
    hosts := [("work-laptop", hostC)]
    hooks := [.command "greet" "echo hi" .continueMode none none]
    secrets := [], mise := { tools := [] } }

/-!
## Theorems
-/

/-- **C6.** The role-filter predicate returns false whenever `skip_roles`
shares an element with `host_roles` (skip always wins, whatever
`only_roles` is); otherwise, with `only_roles` set and non-empty it returns
true iff `only_roles` shares an element with `host_roles`; otherwise
(`only_roles` absent or empty) it returns true. -/
theorem should_apply_for_roles_spec :
    (∀ only_roles skip host_roles, (∃ r ∈ skip, r ∈ host_roles) →
      should_apply_for_roles only_roles (some skip) host_roles = false) ∧
    (∀ only skip_roles host_roles,
      (∀ skip, skip_roles = some skip → ∀ r ∈ skip, r ∉ host_roles) →
      only ≠ [] →
      (should_apply_for_roles (some only) skip_roles host_roles = true ↔
        ∃ r ∈ only, r ∈ host_roles)) ∧
    (∀ only_roles skip_roles host_roles,
      (∀ skip, skip_roles = some skip → ∀ r ∈ skip, r ∉ host_roles) →
      (only_roles = none ∨ only_roles = some []) →
      should_apply_for_roles only_roles skip_roles host_roles = true) := by
  refine ⟨?_, ?_, ?_⟩
  · intro only_roles skip host_roles ⟨r, hr, hhost⟩
    have hany : (skip.any fun role => host_roles.contains role) = true := by
      rw [List.any_eq_true]
      exact ⟨r, hr, by rwa [List.elem_iff]⟩
    simp only [should_apply_for_roles, hany]
    rfl
  · intro only skip_roles host_roles hskip honly
    have honly' : only.isEmpty = false := by
      cases only with
      | nil => exact absurd rfl honly
      | cons a l => rfl
    have htail : ((only.any fun role => host_roles.contains role) = true ↔
        ∃ r ∈ only, r ∈ host_roles) := by
      rw [List.any_eq_true]
      constructor
      · rintro ⟨r, hr, hc⟩; exact ⟨r, hr, by rwa [List.elem_iff] at hc⟩
      · rintro ⟨r, hr, hc⟩; exact ⟨r, hr, by rwa [List.elem_iff]⟩
    cases skip_roles with
    | none =>
      simp only [should_apply_for_roles, honly']
      exact htail
    | some skip =>
      have hnoskip : (skip.any fun role => host_roles.contains role) = false := by
        rw [List.any_eq_false]
        intro r hr
        rw [List.elem_iff]
        exact hskip skip rfl r hr
      simp only [should_apply_for_roles, hnoskip, honly']
      exact htail
  · intro only_roles skip_roles host_roles hskip hcase
    cases skip_roles with
    | none =>
      rcases hcase with h | h <;> subst h <;> rfl
    | some skip =>
      have hnoskip : (skip.any fun role => host_roles.contains role) = false := by
        rw [List.any_eq_false]
        intro r hr
        rw [List.elem_iff]
        exact hskip skip rfl r hr
      rcases hcase with h | h <;> subst h <;>
        simp only [should_apply_for_roles, hnoskip] <;> rfl

/-- Witness for C6: `skip=["x"], host=["x"]` is rejected; `only=["work"]`
against host roles `["work","mac"]` matches; `only=Some([])` with no skip
passes. -/
theorem should_apply_for_roles_spec_witness :
    should_apply_for_roles (some ["personal"]) (some ["x"]) ["x"] = false ∧
    (should_apply_for_roles (some ["work"]) none ["work", "mac"] = true ↔
      ∃ r ∈ ["work"], r ∈ ["work", "mac"]) ∧
    should_apply_for_roles (some []) none ["anything"] = true :=
  ⟨should_apply_for_roles_spec.1 (some ["personal"]) ["x"] ["x"]
      ⟨"x", by decide, by decide⟩,
    should_apply_for_roles_spec.2.1 ["work"] none ["work", "mac"]
      (by intro skip h; cases h) (by decide),
    should_apply_for_roles_spec.2.2 (some []) none ["anything"]
      (by intro skip h; cases h) (Or.inr rfl)⟩

/-- **C7.** Merging a base config with a configured host produces variables
by key-overwrite (the host's value wins on a key collision, base keys not
present in the host survive unchanged), and dotfiles, packages and hooks by
list-append with all base entries first; merging fails if the named host is
not configured. -/
theorem with_host_spec :
    (∀ (c : Config) host_name, c.hosts.get? host_name = none →
      ∃ e, c.with_host host_name = .error e) ∧
    (∀ (c : Config) host_name host, c.hosts.get? host_name = some host →
      (host.«variables».map Prod.fst).Nodup →
      ∃ m, c.with_host host_name = .ok m ∧
        (∀ k, m.«variables».get? k =
          match host.«variables».get? k with
          | some v => some v
          | none => c.«variables».get? k) ∧
        m.dotfiles = c.dotfiles ++ host.dotfiles ∧
        m.packages.homebrew =
          c.packages.normalized.homebrew ++ host.packages.normalized.homebrew ∧
        m.hooks = c.hooks ++ host.hooks) := by
  constructor
  · intro c host_name hnone
    refine ⟨"Host '" ++ host_name ++ "' not found in config", ?_⟩
    simp [Config.with_host, hnone]
  · intro c host_name host hsome hnodup
    refine ⟨c.mergedWith host, ?_, ?_, rfl, rfl, rfl⟩
    · simp [Config.with_host, hsome]
    · intro k
      have h := Smap.get?_overrideWith c.«variables» host.«variables» k hnodup
      rw [show (c.mergedWith host).«variables»
          = c.«variables».overrideWith host.«variables» from rfl, h]
      cases host.«variables».get? k <;> rfl

/-- Witness for C7: merging `baseC` with host `work-laptop` overrides `k`
with the host's value, keeps the base-only `j`, and appends the host's
dotfile/package/hook after the base's. -/
theorem with_host_spec_witness :
    ∃ m, baseC.with_host "work-laptop" = .ok m ∧
      (∀ k, m.«variables».get? k =
        match hostC.«variables».get? k with
        | some v => some v
        | none => baseC.«variables».get? k) ∧
      m.dotfiles = baseC.dotfiles ++ hostC.dotfiles ∧
      m.packages.homebrew =
        baseC.packages.normalized.homebrew ++ hostC.packages.normalized.homebrew ∧
      m.hooks = baseC.hooks ++ hostC.hooks :=
  with_host_spec.2 baseC "work-laptop" hostC (by decide) (by decide)

theorem decodeDotfileState_encode (d : DotfileState) :
    decodeDotfileState (encodeDotfileState d) = some d := by
  obtain ⟨s, t, b, r⟩ := d
  cases b <;> cases r <;>
    simp [encodeDotfileState, decodeDotfileState, Toml.getStr, Toml.getOptStr,
      List.lookup]

theorem decodePackageState_encode (p : PackageState) :
    decodePackageState (encodePackageState p) = some p := by
  obtain ⟨n, m⟩ := p
  simp [encodePackageState, decodePackageState, Toml.getStr, List.lookup]

theorem decodeList_dotfile_encode (l : List DotfileState) :
    decodeList decodeDotfileState (l.map encodeDotfileState) = some l := by
  induction l with
  | nil => rfl
  | cons d rest ih =>
    simp [decodeList, decodeDotfileState_encode, ih]

theorem decodeList_package_encode (l : List PackageState) :
    decodeList decodePackageState (l.map encodePackageState) = some l := by
  induction l with
  | nil => rfl
  | cons p rest ih =>
    simp [decodeList, decodePackageState_encode, ih]

theorem decodeState_encode (s : State) :
    decodeState (encodeState s) = some s := by
  obtain ⟨c, at_, dots, pkgs⟩ := s
  cases c <;>
    simp [encodeState, decodeState, Toml.getOptStr, Toml.getDatetime,
      Toml.getArray, List.lookup, decodeList_dotfile_encode,
      decodeList_package_encode]

/-- **C3 counterexample.** `State::add_dotfile` appends unconditionally:
adding a record whose target is already present in the state produces a
state in which that target appears twice, so the add operation does not
preserve the at-most-once-per-target invariant (this is exactly what a
second apply run over a loaded state does). -/
theorem add_dotfile_duplicate_target_counterexample :
    dupState.targetUnique ∧
    ¬ (dupState.add_dotfile nowC dupRecord).targetUnique := by
  constructor
  · decide
  · decide

/-- **C3 (amended).** `State::new` and `State::clear` produce states with no
duplicate targets, and a save/load round trip preserves the invariant;
`State::add_dotfile`, which appends without any uniqueness check, preserves
the invariant only under the precondition that the added record's target
differs from every existing record's target. -/
theorem state_target_uniqueness_amended :
    (∀ now, (State.new now).targetUnique) ∧
    (∀ (s : State) now, (s.clear now).targetUnique) ∧
    (∀ (s : State) now d, s.targetUnique →
      (∀ r ∈ s.dotfiles, r.target ≠ d.target) →
      (s.add_dotfile now d).targetUnique) ∧
    (∀ now (s s' : State), s.targetUnique →
      State.load now (State.save s) = .ok s' → s'.targetUnique) := by
  refine ⟨?_, ?_, ?_, ?_⟩
  · intro now
    simp [State.new, State.targetUnique]
  · intro s now
    simp [State.clear, State.targetUnique]
  · intro s now d hu hfresh
    unfold State.targetUnique State.add_dotfile
    rw [List.pairwise_append]
    refine ⟨hu, by simp, ?_⟩
    intro a ha b hb
    simp only [List.mem_singleton] at hb
    subst hb
    exact hfresh a ha
  · intro now s s' hu hload
    have : s = s' := by
      simpa [State.load, State.save, decodeState_encode] using hload
    rwa [← this]

/-- Witness for the amended C3: a fresh state is duplicate-free, and adding
a record with a new target to `dupState` keeps the invariant. -/
theorem state_target_uniqueness_amended_witness :
    (State.new nowC).targetUnique ∧
    (dupState.add_dotfile nowC freshRecord).targetUnique :=
  ⟨state_target_uniqueness_amended.1 nowC,
    state_target_uniqueness_amended.2.2.1 dupState nowC freshRecord
      (by decide) (by decide)⟩

/-- **C4.** Saving any `State` to the state file and loading it back yields
the same `State` field-for-field (`applied_commit`, `applied_at`, the
dotfile records, the package records). -/
theorem state_save_load_round_trip (now : DateTime) (s : State) :
    State.load now (State.save s) = .ok s := by
  simp [State.load, State.save, decodeState_encode]

/-- **C1 counterexample.** In `run_apply` the preview diff runs over the
unfiltered merged config (cli.rs:358): with `only_roles=["work"]` and host
roles `["personal"]` the work-only dotfile is rejected by the role filter,
yet the apply pipeline's diff still emits an `Add` change for it, so role
filtering is not applied before resources reach the `DiffEngine` on the
apply path. -/
theorem role_filter_before_diff_counterexample :
    should_apply_for_roles workDotfile.only_roles workDotfile.skip_roles
      ["personal"] = false ∧
    runApplyPreviewChanges envC workFs workConfig =
      .ok [.add .dotfile "/home/u/.work.conf → /repo/work.conf"] := by
  constructor
  · decide
  · rfl

/-- **C1 (amended).** Role filtering is applied before the `DiffEngine` in
the diff command and before any linking in the apply loop: a dotfile the
role filter rejects for the host's roles is absent from the config
`run_diff` hands to `DiffEngine::diff` (so the diff command emits no
`Change` for it), and `run_apply`'s per-dotfile loop step leaves filesystem,
in-memory state and apply-to-all pin untouched for it (no filesystem
mutation); however `run_apply`'s preview diff is computed over the
unfiltered config, so the excluded resource does still reach the
`DiffEngine` there. -/
theorem role_filter_excludes_resource_amended :
    (∀ (config : Config) host_roles (df : Dotfile),
      should_apply_for_roles df.only_roles df.skip_roles host_roles = false →
      df ∉ (filterConfigForRoles config host_roles).dotfiles) ∧
    (∀ env render now prompt (config : Config) host_context acc (df : Dotfile),
      should_apply_for_roles df.only_roles df.skip_roles
        host_context.roles = false →
      applyLoopStep env render now prompt config host_context acc df = acc) := by
  constructor
  · intro config host_roles df hreject hmem
    have := (List.mem_filter.mp hmem).2
    rw [hreject] at this
    cases this
  · intro env render now prompt config host_context acc df hreject
    obtain ⟨fs, state, pin⟩ := acc
    simp [applyLoopStep, hreject]

/-- Witness for the amended C1: the work-only dotfile is excluded from the
filtered config `run_diff` diffs, and the apply loop step over it changes
nothing. -/
theorem role_filter_excludes_resource_amended_witness :
    workDotfile ∉ (filterConfigForRoles workConfig ["personal"]).dotfiles ∧
    applyLoopStep envC renderC nowC ConflictResolution.skip workConfig
      personalCtx (workFs, State.new nowC, none) workDotfile =
      (workFs, State.new nowC, none) :=
  ⟨role_filter_excludes_resource_amended.1 workConfig ["personal"] workDotfile
      (by decide),
    role_filter_excludes_resource_amended.2 envC renderC nowC
      ConflictResolution.skip workConfig personalCtx
      (workFs, State.new nowC, none) workDotfile (by decide)⟩

theorem diff_dotfile_error_of_missing_source (env : DiffEnv) (fs : Fs)
    (df : Dotfile) (h : fs.existsPath (env.expand df.source) = false) :
    diff_dotfile env fs df =
      .error ("Source file does not exist: " ++ (env.expand df.source).display) := by
  simp [diff_dotfile, h]

theorem diffDotfiles_error_of_mem (env : DiffEnv) (fs : Fs)
    (l : List Dotfile) (df : Dotfile) (hmem : df ∈ l) (e : String)
    (herr : diff_dotfile env fs df = .error e) :
    ∃ e', diffDotfiles env fs l = .error e' := by
  induction l with
  | nil => cases hmem
  | cons d rest ih =>
    rcases List.mem_cons.mp hmem with heq | htail
    · subst heq
      exact ⟨e, by simp [diffDotfiles, herr, Bind.bind, Except.bind]⟩
    · cases hd : diff_dotfile env fs d with
      | error e'' =>
        exact ⟨e'', by simp [diffDotfiles, hd, Bind.bind, Except.bind]⟩
      | ok c =>
        obtain ⟨e', hrest⟩ := ih htail
        exact ⟨e', by simp [diffDotfiles, hd, hrest, Bind.bind, Except.bind]⟩

/-- **C8.** If any dotfile in the config has a source that does not exist
after path expansion, `DiffEngine::diff` returns an error for the whole call
— no `Change` list is produced and the missing source is never silently
skipped. -/
theorem diff_missing_source_aborts (env : DiffEnv) (fs : Fs)
    (config : Config) (df : Dotfile) (hmem : df ∈ config.dotfiles)
    (hmissing : fs.existsPath (env.expand df.source) = false) :
    ∃ e, DiffEngine.diff env fs config = .error e := by
  obtain ⟨e', hloop⟩ := diffDotfiles_error_of_mem env fs config.dotfiles df hmem
    ("Source file does not exist: " ++ (env.expand df.source).display)
    (diff_dotfile_error_of_missing_source env fs df hmissing)
  exact ⟨e', by simp [DiffEngine.diff, hloop]⟩

/-- Witness for C8: `missingSourceConfig`'s second dotfile has no source in
`workFs`, so the whole diff errors even though the first dotfile was
diffable. -/
theorem diff_missing_source_aborts_witness :
    ∃ e, DiffEngine.diff envC workFs missingSourceConfig = .error e :=
  diff_missing_source_aborts envC workFs missingSourceConfig
    missingSourceDotfile (by decide) (by decide)

/-- **C2 counterexample.** `create_symlink_with_resolution` (the
non-template apply path) has no parent-directory creation step: applying a
regular dotfile whose target parent `/home/u/.config/app` does not exist
fails at the symlink call instead of succeeding. -/
theorem ensure_parent_dir_counterexample :
    create_symlink_with_resolution envC nowC ConflictResolution.backup
      noParentFs (State.new nowC) "/repo/zshrc" "/home/u/.config/app/rc"
      none = .error "symlink system call failed: ENOENT" := by
  rfl

/-- **C2 (amended).** Only the template apply path ensures the target's
parent directory before linking: `apply_template_dotfile` runs
`fs::create_dir_all` on the target's parent after conflict resolution, so a
template dotfile links successfully even when the parent does not yet exist,
while `create_symlink_with_resolution` performs no such step and fails with
`ENOENT` whenever the target's parent directory is missing. -/
theorem ensure_parent_dir_amended :
    (∀ (env : DiffEnv) now prompt (fs : Fs) (state : State) source target a,
      fs.existsPath (env.expand source) = true →
      fs.find (env.expand target) = none →
      fs.isDir (Path.parent (env.expand target)) = false →
      create_symlink_with_resolution env now prompt fs state source target a =
        .error "symlink system call failed: ENOENT") ∧
    (∀ (rendered : String) (now : DateTime) (prompt : ConflictResolution)
        (state : State),
      ∃ fs',
        apply_template_dotfile envC (fun _ _ _ => .ok rendered) now prompt
          tmplFs state tmplDotfile workConfig personalCtx none =
          .ok (fs', state.add_dotfile now
            { source := Path.display ["repo", "zshrc.tmpl"]
              target := Path.display ["home", "u", ".config", "app", "rc"]
              backup_path := none
              rendered_path :=
                some (Path.display ["home", "u", ".mimic", "rendered", "zshrc"]) },
            none) ∧
        fs'.find ["home", "u", ".config", "app", "rc"] =
          some (.symlink ["home", "u", ".mimic", "rendered", "zshrc"]) ∧
        fs'.find ["home", "u", ".config", "app"] = some .dir) := by
  constructor
  · intro env now prompt fs state source target a hsrc htgt hpdir
    have hex : fs.existsPath (env.expand target) = false :=
      Fs.existsPath_of_find_none fs _ htgt
    have hsym : fs.isSymlink (env.expand target) = false :=
      Fs.isSymlink_of_find_none fs _ htgt
    unfold create_symlink_with_resolution finishLink Fs.symlinkOp
    simp [hsrc, hex, hsym, htgt, hpdir, Bind.bind, Except.bind]
  · intro rendered now prompt state
    exact
      ⟨[(["home", "u", ".config", "app", "rc"],
          .symlink ["home", "u", ".mimic", "rendered", "zshrc"]),
        (["home", "u", ".config", "app"], .dir),
        (["home", "u", ".config"], .dir),
        (["home", "u", ".mimic", "rendered", "zshrc"], .file rendered),
        (["home", "u", ".mimic", "rendered"], .dir),
        (["home", "u", ".mimic"], .dir),
        (["repo", "zshrc.tmpl"], .file "template source"),
        (["repo"], .dir),
        (["home", "u"], .dir),
        (["home"], .dir)], rfl, rfl, rfl⟩

/-- Witness for the amended C2: the regular dotfile of the counterexample
fails via the general statement, and a concrete template render links into
the freshly created `/home/u/.config/app`. -/
theorem ensure_parent_dir_amended_witness :
    create_symlink_with_resolution envC nowC ConflictResolution.overwrite
      noParentFs (State.new nowC) "/repo/zshrc" "/home/u/.config/app/rc"
      (some ApplyToAllChoice.backup) =
      .error "symlink system call failed: ENOENT" ∧
    ∃ fs',
      apply_template_dotfile envC (fun _ _ _ => .ok "hello") nowC
        ConflictResolution.backup tmplFs (State.new nowC) tmplDotfile
        workConfig personalCtx none =
        .ok (fs', (State.new nowC).add_dotfile nowC
          { source := Path.display ["repo", "zshrc.tmpl"]
            target := Path.display ["home", "u", ".config", "app", "rc"]
            backup_path := none
            rendered_path :=
              some (Path.display ["home", "u", ".mimic", "rendered", "zshrc"]) },
          none) ∧
      fs'.find ["home", "u", ".config", "app", "rc"] =
        some (.symlink ["home", "u", ".mimic", "rendered", "zshrc"]) ∧
      fs'.find ["home", "u", ".config", "app"] = some .dir :=
  ⟨ensure_parent_dir_amended.1 envC nowC ConflictResolution.overwrite
      noParentFs (State.new nowC) "/repo/zshrc" "/home/u/.config/app/rc"
      (some ApplyToAllChoice.backup) (by decide) (by decide) (by decide),
    ensure_parent_dir_amended.2 "hello" nowC ConflictResolution.backup
      (State.new nowC)⟩

/-- **C5.** For a conflict resolved with a Backup decision where the target
is a readable file, a sibling file named
`<target-filename>.backup.<timestamp>` is created whose bytes equal the
pre-apply target's bytes, the timestamp is the 15-character
`YYYYMMDD_HHMMSS`, afterwards the target is a symlink to the expanded
configured source (which still holds its content), and the appended record
carries the backup path. -/
theorem backup_fidelity (env : DiffEnv) (now : DateTime)
    (prompt : ConflictResolution) (fs : Fs) (state : State)
    (source target : String) (a : Option ApplyToAllChoice)
    (s t bp : Path) (cs c fn : String)
    (hs_def : s = env.expand source) (ht_def : t = env.expand target)
    (hbp_def : bp = Path.parent t ++ [fn ++ ".backup." ++ formatTimestamp now])
    (hs : fs.find s = some (.file cs))
    (ht : fs.find t = some (.file c))
    (hfn : Path.fileName t = some fn)
    (hne : t ≠ s)
    (hparent : Path.parent t = [] ∨ fs.find (Path.parent t) = some .dir)
    (hfresh : fs.find bp = none)
    (hres : (resolve_conflict a prompt).1 = ConflictResolution.backup ∨
      (resolve_conflict a prompt).1 = ConflictResolution.applyToAll .backup)
    (hy : now.year < 10000) (hmo : now.month < 100) (hd : now.day < 100)
    (hh : now.hour < 100) (hmi : now.minute < 100) (hsec : now.second < 100) :
    ∃ fs',
      create_symlink_with_resolution env now prompt fs state source target a =
        .ok (fs', state.add_dotfile now
          { source := s.display, target := t.display
            backup_path := some bp.display, rendered_path := none },
          (resolve_conflict a prompt).2) ∧
      fs'.find bp = some (.file c) ∧
      fs'.find t = some (.symlink s) ∧
      fs'.find s = some (.file cs) ∧
      (formatTimestamp now).length = 15 := by
  rcases hresolve : resolve_conflict a prompt with ⟨res, a2⟩
  rw [hresolve] at hres
  simp only at hres
  have htne_nil : t ≠ [] := Path.ne_nil_of_fileName t fn hfn
  have htbp : t ≠ bp := by
    intro heq
    rw [← heq] at hfresh
    rw [hfresh] at ht
    cases ht
  have hsbp : s ≠ bp := by
    intro heq
    rw [← heq] at hfresh
    rw [hfresh] at hs
    cases hs
  have hst : s ≠ t := Ne.symm hne
  have hsrc_exists : fs.existsPath s = true := Fs.existsPath_of_find_file fs s cs hs
  have htgt_exists : fs.existsPath t = true := Fs.existsPath_of_find_file fs t c ht
  have hdir_t : fs.isDir t = false := Fs.isDir_of_find_file fs t c htne_nil ht
  have hsym_t : fs.isSymlink t = false := Fs.isSymlink_of_find_file fs t c ht
  have hbp_parent : Path.parent bp = Path.parent t := by
    rw [hbp_def, Path.parent_append_singleton]
  have hpdir : fs.isDir (Path.parent t) = true := by
    rcases hparent with h | h
    · rw [h]; exact Fs.isDir_root fs
    · exact Fs.isDir_of_find_dir fs _ h
  have hwritebp : fs.writeFile bp c = .ok (fs.insert bp (.file c)) := by
    unfold Fs.writeFile
    rw [Fs.resolveLink_of_none fs bp fs.length hfresh]
    simp [hfresh, hbp_parent, hpdir]
  have hcopy : fs.copy t bp = .ok (fs.insert bp (.file c)) := by
    unfold Fs.copy
    rw [Fs.resolveLink_of_file fs t c fs.length ht]
    simp [ht, hwritebp]
  have hbf : backup_file fs now t = .ok (fs.insert bp (.file c), bp) := by
    unfold backup_file
    rw [hfn]
    simp [hdir_t, hsym_t, ← hbp_def, hcopy, Bind.bind, Except.bind, pure,
      Except.pure]
  have hfind1_t : (fs.insert bp (.file c)).find t = some (.file c) := by
    rw [Fs.find_insert_ne fs bp t _ htbp]
    exact ht
  have hex1_t : (fs.insert bp (.file c)).existsPath t = true :=
    Fs.existsPath_of_find_file _ t c hfind1_t
  have hdir1_t : (fs.insert bp (.file c)).isDir t = false :=
    Fs.isDir_of_find_file _ t c htne_nil hfind1_t
  have hsym1_t : (fs.insert bp (.file c)).isSymlink t = false :=
    Fs.isSymlink_of_find_file _ t c hfind1_t
  have hrt : remove_target (fs.insert bp (.file c)) t =
      .ok ((fs.insert bp (.file c)).erase t) := by
    unfold remove_target Fs.removeFile
    simp [hdir1_t, hsym1_t, hfind1_t]
  have hbb : backupBranch fs now t =
      .ok ((fs.insert bp (.file c)).erase t, some bp.display) := by
    unfold backupBranch
    simp [htgt_exists, hbf, hex1_t, hrt, Bind.bind, Except.bind, pure,
      Except.pure]
  have hfind2_t : ((fs.insert bp (.file c)).erase t).find t = none :=
    Fs.find_erase_self _ t
  have hparent2 : ((fs.insert bp (.file c)).erase t).isDir (Path.parent t) = true := by
    rcases hparent with h | h
    · rw [h]; exact Fs.isDir_root _
    · have hptne_t : Path.parent t ≠ t := Path.parent_ne_self t htne_nil
      have hptne_bp : Path.parent t ≠ bp := by
        rw [hbp_def]; exact Path.parent_ne_append_singleton _ _
      have hfindp : ((fs.insert bp (.file c)).erase t).find (Path.parent t) =
          some .dir := by
        rw [Fs.find_erase_ne _ t _ hptne_t, Fs.find_insert_ne fs bp _ _ hptne_bp]
        exact h
      exact Fs.isDir_of_find_dir _ _ hfindp
  have hsymop : ((fs.insert bp (.file c)).erase t).symlinkOp s t =
      .ok (((fs.insert bp (.file c)).erase t).insert t (.symlink s)) := by
    unfold Fs.symlinkOp
    simp [hfind2_t, Path.parent,
      show ((fs.insert bp (Entry.file c)).erase t).isDir (List.dropLast t) = true
        from hparent2]
  have hfl : finishLink now ((fs.insert bp (.file c)).erase t) state s t
      (some bp.display) a2 =
      .ok (((fs.insert bp (.file c)).erase t).insert t (.symlink s),
        state.add_dotfile now
          { source := s.display, target := t.display
            backup_path := some bp.display, rendered_path := none }, a2) := by
    unfold finishLink
    simp [hsymop, Bind.bind, Except.bind, pure, Except.pure]
  refine ⟨((fs.insert bp (.file c)).erase t).insert t (.symlink s), ?_, ?_, ?_, ?_, ?_⟩
  · unfold create_symlink_with_resolution
    rw [← hs_def, ← ht_def]
    rcases hres with h | h <;> subst h <;>
      simp [hsrc_exists, htgt_exists, hresolve, hbb, hfl, Bind.bind,
        Except.bind, pure, Except.pure]
  · rw [Fs.find_insert_ne _ t bp _ (Ne.symm htbp),
      Fs.find_erase_ne _ t bp (Ne.symm htbp)]
    exact Fs.find_insert_self fs bp (.file c)
  · exact Fs.find_insert_self _ t _
  · rw [Fs.find_insert_ne _ t s _ hst,
      Fs.find_erase_ne _ t s hst, Fs.find_insert_ne fs bp s _ hsbp]
    exact hs
  · exact formatTimestamp_length now hy hmo hd hh hmi hsec

/-- Witness for C5: backing up `/home/u/.vimrc` (content `"old content"`)
produces the sibling backup file with those bytes and relinks the target to
`/repo/vimrc`. -/
theorem backup_fidelity_witness :
    ∃ fs',
      create_symlink_with_resolution envC nowC ConflictResolution.backup
        conflictFs (State.new nowC) "/repo/vimrc" "/home/u/.vimrc" none =
        .ok (fs', (State.new nowC).add_dotfile nowC
          { source := Path.display ["repo", "vimrc"]
            target := Path.display ["home", "u", ".vimrc"]
            backup_path := some (Path.display
              (Path.parent ["home", "u", ".vimrc"] ++
                [".vimrc" ++ ".backup." ++ formatTimestamp nowC]))
            rendered_path := none },
          (resolve_conflict none ConflictResolution.backup).2) ∧
      fs'.find (Path.parent ["home", "u", ".vimrc"] ++
        [".vimrc" ++ ".backup." ++ formatTimestamp nowC]) =
        some (.file "old content") ∧
      fs'.find ["home", "u", ".vimrc"] = some (.symlink ["repo", "vimrc"]) ∧
      fs'.find ["repo", "vimrc"] = some (.file "new content") ∧
      (formatTimestamp nowC).length = 15 :=
  backup_fidelity envC nowC ConflictResolution.backup conflictFs
    (State.new nowC) "/repo/vimrc" "/home/u/.vimrc" none
    ["repo", "vimrc"] ["home", "u", ".vimrc"]
    (Path.parent ["home", "u", ".vimrc"] ++
      [".vimrc" ++ ".backup." ++ formatTimestamp nowC])
    "new content" "old content" ".vimrc"
    (by decide) (by decide) rfl (by decide) (by decide) (by decide)
    (by decide) (Or.inr (by decide)) (by decide) (Or.inl rfl)
    (by decide) (by decide) (by decide) (by decide) (by decide) (by decide)

/-- **C9.** A conflict resolved with a Skip decision returns success and
mutates nothing: `create_symlink_with_resolution` hands back exactly the
filesystem and state it was given (the existing target untouched, no
`DotfileRecord` appended), and `apply_template_dotfile`'s skip arm likewise
returns the filesystem as it stood after the render-cache preamble (which
runs before the decision for every resolution) with the state untouched. -/
theorem skip_decision_frame :
    (∀ (env : DiffEnv) now prompt (fs : Fs) (state : State) source target a,
      fs.existsPath (env.expand source) = true →
      (fs.existsPath (env.expand target) ||
        fs.isSymlink (env.expand target)) = true →
      ((resolve_conflict a prompt).1 = ConflictResolution.skip ∨
        (resolve_conflict a prompt).1 = ConflictResolution.applyToAll .skip) →
      create_symlink_with_resolution env now prompt fs state source target a =
        .ok (fs, state, (resolve_conflict a prompt).2)) ∧
    (∀ (env : DiffEnv) render now prompt (fs fs0 fs1 : Fs) (state : State)
        (dotfile : Dotfile) (config : Config) host_context a rendered fn,
      render (env.expand dotfile.source) config.«variables» host_context =
        .ok rendered →
      fs.mkdirAll (renderedDirOf env.home) = .ok fs0 →
      (env.expand dotfile.source).fileName = some fn →
      fs0.writeFile (renderedDirOf env.home ++
        [trimEndMatches (trimEndMatches fn ".tmpl") ".hbs"]) rendered = .ok fs1 →
      (fs1.existsPath (env.expand dotfile.target) ||
        fs1.isSymlink (env.expand dotfile.target)) = true →
      ((resolve_conflict a prompt).1 = ConflictResolution.skip ∨
        (resolve_conflict a prompt).1 = ConflictResolution.applyToAll .skip) →
      apply_template_dotfile env render now prompt fs state dotfile config
        host_context a = .ok (fs1, state, (resolve_conflict a prompt).2)) := by
  constructor
  · intro env now prompt fs state source target a hsrc hconflict hskip
    rcases hres : resolve_conflict a prompt with ⟨res, a2⟩
    rw [hres] at hskip
    simp only at hskip
    unfold create_symlink_with_resolution
    rcases hskip with h | h <;> subst h <;>
      simp [hsrc, hconflict, hres, pure, Except.pure]
  · intro env render now prompt fs fs0 fs1 state dotfile config host_context a
      rendered fn hrender hmkdir hfn hwrite hconflict hskip
    rcases hres : resolve_conflict a prompt with ⟨res, a2⟩
    rw [hres] at hskip
    simp only at hskip
    unfold apply_template_dotfile
    rcases hskip with h | h <;> subst h <;>
      simp [hrender, hmkdir, hfn, hwrite, hconflict, hres,
        Bind.bind, Except.bind, pure, Except.pure]

/-- Witness for C9: with a standing skip pin, linking over an occupied
target returns success with the filesystem and state unchanged (the pin
overrides the prompt). -/
theorem skip_decision_frame_witness :
    create_symlink_with_resolution envC nowC ConflictResolution.backup
      conflictFs (State.new nowC) "/repo/vimrc" "/home/u/.vimrc"
      (some ApplyToAllChoice.skip) =
      .ok (conflictFs, State.new nowC, some ApplyToAllChoice.skip) :=
  skip_decision_frame.1 envC nowC ConflictResolution.backup conflictFs
    (State.new nowC) "/repo/vimrc" "/home/u/.vimrc"
    (some ApplyToAllChoice.skip) (by decide) (by decide) (Or.inl rfl)

/-- **C10.** When the undo command finds a state file that exists but cannot
be parsed, it surfaces no parse error: it reports `"Nothing to undo."` and
returns success, exactly as in the empty-state case, touching neither the
filesystem nor the state file. -/
theorem run_undo_unparseable_state (now : DateTime) (fs : Fs) (t : Toml)
    (h : decodeState t = none) :
    run_undo now (some t) fs =
      { message := "Nothing to undo.", fs := fs, stateFile := some t
        symlinks_removed := 0, backups_restored := 0, errors := [] } := by
  simp [run_undo, State.load, h]

/-- Witness for C10: a state file holding a bare string is unparseable, and
undo leaves the filesystem and the state file exactly as they were. -/
theorem run_undo_unparseable_state_witness :
    decodeState badStateToml = none ∧
    run_undo nowC (some badStateToml) workFs =
      { message := "Nothing to undo.", fs := workFs
        stateFile := some badStateToml
        symlinks_removed := 0, backups_restored := 0, errors := [] } :=
  ⟨by decide,
    run_undo_unparseable_state nowC workFs badStateToml (by decide)⟩

end Mimic
